import Mathlib

/-!
# Leadership election glue of Reloader (`internal/pkg/leadership/leadership.go`)

A shallow embedding of the package: the lease lock constructor `GetNewLock`, the
election configuration and callbacks that `RunLeaderElection` hands to the election
loop, the worker start/stop helpers `runControllers` / `stopControllers`, and the
liveness handler `healthz`.

Modelling decisions:

* Channels live in a heap `List Bool`; the entry at index `c` says whether channel `c`
  has been closed.  `make` allocates a fresh open channel at the end of the heap.
  `close` follows the Go runtime: closing a closed channel panics, and so does closing a
  channel that does not exist (the nil channel).
* A Go panic is an explicit result, `Outcome.panicked`, carrying the state at the moment
  of the panic; a normal return is `Outcome.done`.
* `go c.Run(1, ch)` is recorded as a `Launch` appended to the launch log; what a
  controller does once started is outside this package.
* `cancel` is the caller supplied `context.CancelFunc`; its invocations are counted.
* `logrus` output is kept as a list of lines.
* The mutex `m` is free whenever a callback or a handler begins, because the operations
  are taken one at a time; it is therefore not represented.
-/

namespace Leadership

/-! ## Results of operations that may panic -/

/-- Result of running a piece of Go code: a normal return or a runtime panic, each with
the state reached. -/
inductive Outcome (σ : Type) where
  | done (s : σ)
  | panicked (msg : String) (s : σ)
  deriving DecidableEq

/-- State carried by an outcome, whether or not it panicked. -/
def Outcome.state {σ : Type} : Outcome σ → σ
  | .done s => s
  | .panicked _ s => s

/-- Tells whether the code returned normally. -/
def Outcome.returned {σ : Type} : Outcome σ → Bool
  | .done _ => true
  | .panicked _ _ => false

/-! ## Process state -/

/-- One `go c.Run(threadiness, stop)` statement that has been executed. -/
structure Launch (κ : Type) where
  controller : κ
  threadiness : Nat
  stop : Nat
  deriving DecidableEq

/-- Mutable state of the process as far as this package touches it. -/
structure State (κ : Type) where
  /-- Package variable `healthy`. -/
  healthy : Bool
  /-- Channel heap: `heap[c] = true` when channel `c` is closed. -/
  heap : List Bool
  /-- Number of times the `cancel` function has been invoked. -/
  cancelCalls : Nat
  /-- Goroutines started by `runControllers`, oldest first. -/
  launched : List (Launch κ)
  /-- Lines written through `logrus`. -/
  logs : List String
  deriving DecidableEq

/-- State right after process start: `healthy` is initialised to `true`; `heap0` holds
whatever channels exist already. -/
def initState (κ : Type) (heap0 : List Bool) : State κ :=
  { healthy := true, heap := heap0, cancelCalls := 0, launched := [], logs := [] }

/-- Variables captured by the callback closures of `RunLeaderElection`. -/
structure Env (κ : Type) where
  id : String
  controllers : List κ
  stopChannels : List Nat
  deriving DecidableEq

/-- Channel `c` exists in the heap and has not been closed. -/
def isOpen (heap : List Bool) (c : Nat) : Prop := heap[c]? = some false

/-- Channel `c` exists in the heap and has been closed. -/
def isClosed (heap : List Bool) (c : Nat) : Prop := heap[c]? = some true

instance (heap : List Bool) (c : Nat) : Decidable (isOpen heap c) := by
  unfold isOpen; infer_instance

instance (heap : List Bool) (c : Nat) : Decidable (isClosed heap c) := by
  unfold isClosed; infer_instance

/-! ## Primitives -/

/-- Go `make(chan struct{})`: a fresh open channel. -/
def makeChan {κ : Type} (s : State κ) : Nat × State κ :=
  (s.heap.length, { s with heap := s.heap ++ [false] })

/-- Go `close(c)`. -/
def closeChan {κ : Type} (c : Nat) (s : State κ) : Outcome (State κ) :=
  match s.heap[c]? with
  | some false => .done { s with heap := s.heap.set c true }
  | some true => .panicked "close of closed channel" s
  | none => .panicked "close of nil channel" s

/-- The `logrus.Info` / `logrus.Infof` calls. -/
def logInfo {κ : Type} (line : String) (s : State κ) : State κ :=
  { s with logs := s.logs ++ [line] }

/-- The `cancel()` call. -/
def cancel {κ : Type} (s : State κ) : State κ :=
  { s with cancelCalls := s.cancelCalls + 1 }

/-! ## `GetNewLock` -/

/-- The fields of `v1.ObjectMeta` that `GetNewLock` sets; every other field keeps its
zero value. -/
structure ObjectMeta where
  Name : String
  Namespace : String
  deriving DecidableEq

/-- The field of `resourcelock.ResourceLockConfig` that `GetNewLock` sets. -/
structure ResourceLockConfig where
  Identity : String
  deriving DecidableEq

/-- The struct `resourcelock.LeaseLock`, over any client type. -/
structure LeaseLock (γ : Type) where
  LeaseMeta : ObjectMeta
  Client : γ
  LockConfig : ResourceLockConfig

/-- The function `GetNewLock(client, lockName, podname, namespace)`. -/
def GetNewLock {γ : Type} (client : γ) (lockName podname namespace_ : String) : LeaseLock γ :=
  { LeaseMeta := { Name := lockName, Namespace := namespace_ },
    Client := client,
    LockConfig := { Identity := podname } }

/-! ## Election configuration -/

/-- Go `time.Second`, in nanoseconds (the unit of `time.Duration`). -/
def Second : Int := 1000000000

/-- The non-callback fields of `leaderelection.LeaderElectionConfig` set by
`RunLeaderElection`. -/
structure LeaderElectionConfig where
  ReleaseOnCancel : Bool
  LeaseDuration : Int
  RenewDeadline : Int
  RetryPeriod : Int
  deriving DecidableEq

/-- Configuration literal passed to `leaderelection.RunOrDie`. -/
def electionConfig : LeaderElectionConfig :=
  { ReleaseOnCancel := true,
    LeaseDuration := 15 * Second,
    RenewDeadline := 10 * Second,
    RetryPeriod := 2 * Second }

/-! ## Workers -/

/-- The loop `for i := 0; i < len(controllers); i++` of `RunLeaderElection`, with `n`
iterations left: each one makes a channel and appends it to `stopChannels`. -/
def makeStopChannels {κ : Type} : Nat → List Nat → State κ → List Nat × State κ
  | 0, stopChannels, s => (stopChannels, s)
  | n + 1, stopChannels, s =>
    let (stop, s1) := makeChan s
    makeStopChannels n (stopChannels ++ [stop]) s1

/-- The part of `RunLeaderElection` before `RunOrDie`: builds the stop channels and the
closure environment of the callbacks. -/
def RunLeaderElection {κ : Type} (id : String) (controllers : List κ) (s : State κ) :
    Env κ × State κ :=
  let (stopChannels, s1) := makeStopChannels controllers.length [] s
  ({ id := id, controllers := controllers, stopChannels := stopChannels }, s1)

/-- The loop of `runControllers`, at index `i` with `rest` still to visit.  Indexing
`stopChannels[i]` out of range panics. -/
def runControllersFrom {κ : Type} (i : Nat) :
    List κ → List Nat → State κ → Outcome (State κ)
  | [], _, s => .done s
  | c :: rest, stopChannels, s =>
    match stopChannels[i]? with
    | none => .panicked "index out of range" s
    | some stop =>
      runControllersFrom (i + 1) rest stopChannels
        { s with launched := s.launched ++ [{ controller := c, threadiness := 1, stop := stop }] }

/-- The function `runControllers(controllers, stopChannels)`. -/
def runControllers {κ : Type} (controllers : List κ) (stopChannels : List Nat)
    (s : State κ) : Outcome (State κ) :=
  runControllersFrom 0 controllers stopChannels s

/-- The function `stopControllers(stopChannels)`. -/
def stopControllers {κ : Type} : List Nat → State κ → Outcome (State κ)
  | [], s => .done s
  | c :: rest, s =>
    match closeChan c s with
    | .done s1 => stopControllers rest s1
    | .panicked msg s1 => .panicked msg s1

/-! ## Callbacks -/

/-- Callback `OnStartedLeading`. -/
def OnStartedLeading {κ : Type} (env : Env κ) (s : State κ) : Outcome (State κ) :=
  runControllers env.controllers env.stopChannels
    (logInfo "became leader, starting controllers" s)

/-- Callback `OnStoppedLeading`. -/
def OnStoppedLeading {κ : Type} (env : Env κ) (s : State κ) : Outcome (State κ) :=
  match stopControllers env.stopChannels (logInfo "no longer leader, shutting down" s) with
  | .panicked msg s1 => .panicked msg s1
  | .done s1 => .done { cancel s1 with healthy := false }

/-- Callback `OnNewLeader`. -/
def OnNewLeader {κ : Type} (env : Env κ) (current_id : String) (s : State κ) : State κ :=
  if current_id = env.id then logInfo "still the leader!" s
  else logInfo ("new leader is " ++ current_id) s

/-! ## Liveness endpoint -/

/-- Go `http.StatusOK`. -/
def StatusOK : Nat := 200

/-- Go `http.StatusInternalServerError`. -/
def StatusInternalServerError : Nat := 500

/-- The methods of `http.ResponseWriter` that `healthz` calls, over a writer state `ω`.
`Write` returns the new writer, the byte count and the error, if any. -/
structure ResponseWriter (ω : Type) where
  Write : ω → List UInt8 → ω × Nat × Option String
  WriteHeader : ω → Nat → ω

/-- What a client receives: the status line, once written, and the body bytes. -/
structure Response where
  status : Option Nat
  body : List UInt8
  deriving DecidableEq

/-- Response of a request before the handler runs. -/
def Response.empty : Response := { status := none, body := [] }

/-- The `net/http` response writer of a healthy connection: `WriteHeader` fixes the status
once, `Write` first sends status 200 if no status was sent, then appends the bytes. -/
def httpWriter : ResponseWriter Response :=
  { WriteHeader := fun r code =>
      match r.status with
      | none => { r with status := some code }
      | some _ => r,
    Write := fun r bytes =>
      let r1 : Response :=
        match r.status with
        | none => { r with status := some StatusOK }
        | some _ => r
      ({ r1 with body := r1.body ++ bytes }, bytes.length, none) }

/-- Go `[]byte("alive")`: the UTF-8 encoding of the string. -/
def aliveBytes : List UInt8 := "alive".toList.flatMap String.utf8EncodeChar

/-- The handler `healthz(w, req)`; the request is not inspected. -/
def healthz {κ ω : Type} (W : ResponseWriter ω) (s : State κ) (w : ω) : State κ × ω :=
  if s.healthy then
    match W.Write w aliveBytes with
    | (w1, i, some err) =>
      (logInfo ("failed to write liveness response, wrote: " ++ toString i
        ++ " bytes, got err: " ++ err) s, w1)
    | (w1, _, none) => (s, w1)
  else
    (s, W.WriteHeader w StatusInternalServerError)

/-! ## Sequences of operations -/

/-- Operations the election loop and the HTTP server perform on the process. -/
inductive Op where
  | OnStartedLeading
  | OnStoppedLeading
  | OnNewLeader (current_id : String)
  | healthz
  deriving DecidableEq

/-- One operation.  A `healthz` request gets a fresh response of its own. -/
def step {κ : Type} (env : Env κ) (s : State κ) : Op → Outcome (State κ)
  | .OnStartedLeading => OnStartedLeading env s
  | .OnStoppedLeading => OnStoppedLeading env s
  | .OnNewLeader current_id => .done (OnNewLeader env current_id s)
  | .healthz => .done (healthz httpWriter s Response.empty).1

/-- A sequence of operations; a panic ends the process, so the rest is not run. -/
def run {κ : Type} (env : Env κ) : List Op → State κ → Outcome (State κ)
  | [], s => .done s
  | op :: ops, s =>
    match step env s op with
    | .done s1 => run env ops s1
    | .panicked msg s1 => .panicked msg s1

/-- Every channel of the list is open. -/
def AllOpen (heap : List Bool) (chans : List Nat) : Prop := ∀ c ∈ chans, isOpen heap c

/-- Every channel of the list is closed. -/
def AllClosed (heap : List Bool) (chans : List Nat) : Prop := ∀ c ∈ chans, isClosed heap c

instance (heap : List Bool) (chans : List Nat) : Decidable (AllOpen heap chans) := by
  unfold AllOpen; infer_instance

instance (heap : List Bool) (chans : List Nat) : Decidable (AllClosed heap chans) := by
  unfold AllClosed; infer_instance

/-- Launch record of controller `c` on stop channel `stop`, as `runControllers` makes it. -/
def launchOf {κ : Type} (c : κ) (stop : Nat) : Launch κ :=
  { controller := c, threadiness := 1, stop := stop }

/-- What holds of the closure environment and the state at every point of a run: the
stop channels are pairwise distinct, one per controller, all open while the process is
healthy and all closed once it is not. -/
structure Inv {κ : Type} (env : Env κ) (s : State κ) : Prop where
  nodup : env.stopChannels.Nodup
  len : env.stopChannels.length = env.controllers.length
  openWhenHealthy : s.healthy = true → AllOpen s.heap env.stopChannels
  closedWhenNot : s.healthy = false → AllClosed s.heap env.stopChannels

/-- Closure environment of the callbacks when `RunLeaderElection` is called on a freshly
started process. -/
def startEnv {κ : Type} (id : String) (cs : List κ) (heap0 : List Bool) : Env κ :=
  (RunLeaderElection id cs (initState κ heap0)).1

/-- Process state when `RunLeaderElection` reaches the election loop on a freshly started
process. -/
def startState {κ : Type} (id : String) (cs : List κ) (heap0 : List Bool) : State κ :=
  (RunLeaderElection id cs (initState κ heap0)).2

/-! ## Building the stop channels -/

theorem makeStopChannels_eq {κ : Type} (n : Nat) (acc : List Nat) (s : State κ) :
    makeStopChannels n acc s
      = (acc ++ List.range' s.heap.length n,
         { s with heap := s.heap ++ List.replicate n false }) := by
  induction n generalizing acc s with
  | zero => simp [makeStopChannels]
  | succ n ih =>
    simp only [makeStopChannels, makeChan, ih]
    simp [List.range'_succ, List.replicate_succ]

theorem RunLeaderElection_eq {κ : Type} (id : String) (controllers : List κ) (s : State κ) :
    RunLeaderElection id controllers s
      = ({ id := id, controllers := controllers,
           stopChannels := List.range' s.heap.length controllers.length },
         { s with heap := s.heap ++ List.replicate controllers.length false }) := by
  simp [RunLeaderElection, makeStopChannels_eq]

/-! ## Frame properties -/

theorem runControllersFrom_frame {κ : Type} (cs : List κ) (chans : List Nat) (i : Nat)
    (s : State κ) :
    (runControllersFrom i cs chans s).state.healthy = s.healthy
      ∧ (runControllersFrom i cs chans s).state.heap = s.heap
      ∧ (runControllersFrom i cs chans s).state.cancelCalls = s.cancelCalls := by
  induction cs generalizing i s with
  | nil => simp [runControllersFrom, Outcome.state]
  | cons c rest ih =>
    simp only [runControllersFrom]
    split
    · simp [Outcome.state]
    · rename_i stop _
      have h := ih (i + 1)
        { s with launched := s.launched ++ [{ controller := c, threadiness := 1, stop := stop }] }
      simpa using h

theorem runControllersFrom_ok {κ : Type} (cs : List κ) (chans : List Nat) (i : Nat)
    (s : State κ) (hlen : i + cs.length ≤ chans.length) :
    runControllersFrom i cs chans s
      = .done { s with launched := s.launched ++ List.zipWith launchOf cs (chans.drop i) } := by
  induction cs generalizing i s with
  | nil => simp [runControllersFrom]
  | cons c rest ih =>
    have hi : i < chans.length := by simp at hlen; omega
    have hget : chans[i]? = some chans[i] := List.getElem?_eq_getElem hi
    simp only [runControllersFrom, hget]
    rw [ih (i + 1) _ (by simp at hlen; omega), List.drop_eq_getElem_cons hi]
    simp only [List.zipWith_cons_cons, launchOf, List.append_assoc, List.singleton_append]

theorem closeChan_frame {κ : Type} (c : Nat) (s : State κ) :
    (closeChan c s).state.healthy = s.healthy
      ∧ (closeChan c s).state.cancelCalls = s.cancelCalls
      ∧ (closeChan c s).state.launched = s.launched
      ∧ (closeChan c s).state.logs = s.logs
      ∧ (closeChan c s).state.heap.length = s.heap.length
      ∧ ∀ d, isClosed s.heap d → isClosed (closeChan c s).state.heap d := by
  unfold closeChan
  split
  · refine ⟨rfl, rfl, rfl, rfl, by simp [Outcome.state], ?_⟩
    intro d hd
    simp only [Outcome.state, isClosed] at hd ⊢
    by_cases hcd : c = d
    · subst hcd
      have hlt : c < s.heap.length := by
        rcases List.getElem?_eq_some.mp hd with ⟨h, _⟩
        exact h
      simp [List.getElem?_set_self hlt]
    · simpa [List.getElem?_set_ne hcd] using hd
  · exact ⟨rfl, rfl, rfl, rfl, rfl, fun d hd => hd⟩
  · exact ⟨rfl, rfl, rfl, rfl, rfl, fun d hd => hd⟩

theorem stopControllers_frame {κ : Type} (chans : List Nat) (s : State κ) :
    (stopControllers chans s).state.healthy = s.healthy
      ∧ (stopControllers chans s).state.cancelCalls = s.cancelCalls
      ∧ (stopControllers chans s).state.launched = s.launched
      ∧ (stopControllers chans s).state.logs = s.logs
      ∧ (stopControllers chans s).state.heap.length = s.heap.length
      ∧ ∀ d, isClosed s.heap d → isClosed (stopControllers chans s).state.heap d := by
  induction chans generalizing s with
  | nil => exact ⟨rfl, rfl, rfl, rfl, rfl, fun d hd => hd⟩
  | cons c rest ih =>
    have hc := closeChan_frame c s
    simp only [stopControllers]
    cases hcl : closeChan c s with
    | panicked msg s1 =>
      rw [hcl] at hc
      simpa [Outcome.state] using hc
    | done s1 =>
      rw [hcl] at hc
      simp only [Outcome.state] at hc
      obtain ⟨h1, h2, h3, h4, h5, h6⟩ := hc
      obtain ⟨k1, k2, k3, k4, k5, k6⟩ := ih s1
      exact ⟨k1.trans h1, k2.trans h2, k3.trans h3, k4.trans h4, k5.trans h5,
        fun d hd => k6 d (h6 d hd)⟩

/-- Closing pairwise distinct open channels succeeds, closes each of them and touches
nothing else. -/
theorem stopControllers_ok {κ : Type} (chans : List Nat) (s : State κ)
    (hnd : chans.Nodup) (hopen : AllOpen s.heap chans) :
    ∃ heap1, stopControllers chans s = .done { s with heap := heap1 }
      ∧ heap1.length = s.heap.length
      ∧ AllClosed heap1 chans
      ∧ ∀ d, d ∉ chans → heap1[d]? = s.heap[d]? := by
  induction chans generalizing s with
  | nil => exact ⟨s.heap, rfl, rfl, by simp [AllClosed], fun _ _ => rfl⟩
  | cons c rest ih =>
    have hc : s.heap[c]? = some false := hopen c (by simp)
    have hnotin : c ∉ rest := (List.nodup_cons.mp hnd).1
    have hopen1 : AllOpen (s.heap.set c true) rest := by
      intro d hd
      have hne : c ≠ d := fun h => hnotin (h ▸ hd)
      simpa [isOpen, List.getElem?_set_ne hne] using hopen d (by simp [hd])
    obtain ⟨heap1, h1, h2, h3, h4⟩ :=
      ih { s with heap := s.heap.set c true } (List.nodup_cons.mp hnd).2 hopen1
    refine ⟨heap1, ?_, by simpa using h2, ?_, ?_⟩
    · simp only [stopControllers, closeChan, hc]
      simpa using h1
    · intro d hd
      rcases List.mem_cons.mp hd with rfl | hd
      · have hlt : d < s.heap.length := by
          rcases List.getElem?_eq_some.mp hc with ⟨h, _⟩
          exact h
        have := h4 d hnotin
        simpa [isClosed, List.getElem?_set_self hlt] using this
      · exact h3 d hd
    · intro d hd
      have hne : c ≠ d := fun h => hd (by simp [h])
      have hd1 : d ∉ rest := fun h => hd (by simp [h])
      simpa [List.getElem?_set_ne hne] using h4 d hd1

/-- Closing a list whose first channel is already closed panics at once. -/
theorem stopControllers_closed_head {κ : Type} (c : Nat) (rest : List Nat) (s : State κ)
    (hc : isClosed s.heap c) :
    stopControllers (c :: rest) s = .panicked "close of closed channel" s := by
  have hc1 : s.heap[c]? = some true := hc
  simp [stopControllers, closeChan, hc1]

/-! ## The invariant along a run -/

theorem AllOpen_stopChannels_init {κ : Type} (id : String) (cs : List κ) (s : State κ) :
    AllOpen (RunLeaderElection id cs s).2.heap (RunLeaderElection id cs s).1.stopChannels := by
  rw [RunLeaderElection_eq]
  intro c hc
  simp only [List.mem_range'_1] at hc
  simp only [isOpen]
  rw [List.getElem?_append_right hc.1, List.getElem?_replicate_of_lt (by omega)]

theorem Inv_init {κ : Type} (id : String) (cs : List κ) (heap0 : List Bool) :
    Inv (RunLeaderElection id cs (initState κ heap0)).1
      (RunLeaderElection id cs (initState κ heap0)).2 := by
  refine ⟨?_, ?_, fun _ => AllOpen_stopChannels_init id cs _, ?_⟩
  · rw [RunLeaderElection_eq]
    exact List.nodup_range' _ _
  · rw [RunLeaderElection_eq]
    simp
  · rw [RunLeaderElection_eq]
    intro h
    simp [initState] at h

theorem OnStartedLeading_eq {κ : Type} (env : Env κ) (s : State κ)
    (hlen : env.stopChannels.length = env.controllers.length) :
    OnStartedLeading env s
      = .done { logInfo "became leader, starting controllers" s with
          launched := s.launched ++ List.zipWith launchOf env.controllers env.stopChannels } := by
  unfold OnStartedLeading runControllers
  rw [runControllersFrom_ok _ _ _ _ (by omega)]
  simp [logInfo]

theorem OnStoppedLeading_ok {κ : Type} (env : Env κ) (s : State κ)
    (hnd : env.stopChannels.Nodup) (hopen : AllOpen s.heap env.stopChannels) :
    ∃ heap1, OnStoppedLeading env s
        = .done { healthy := false, heap := heap1, cancelCalls := s.cancelCalls + 1,
                  launched := s.launched,
                  logs := s.logs ++ ["no longer leader, shutting down"] }
      ∧ heap1.length = s.heap.length
      ∧ AllClosed heap1 env.stopChannels
      ∧ ∀ d, d ∉ env.stopChannels → heap1[d]? = s.heap[d]? := by
  obtain ⟨heap1, h1, h2, h3, h4⟩ :=
    stopControllers_ok env.stopChannels (logInfo "no longer leader, shutting down" s) hnd hopen
  refine ⟨heap1, ?_, h2, h3, h4⟩
  simp only [OnStoppedLeading, h1, cancel]
  rfl

theorem healthz_httpWriter {κ : Type} (s : State κ) :
    healthz httpWriter s Response.empty
      = (s, if s.healthy then { status := some StatusOK, body := aliveBytes }
            else { status := some StatusInternalServerError, body := [] }) := by
  cases h : s.healthy <;> simp [healthz, httpWriter, Response.empty, h]

theorem step_inv {κ : Type} (env : Env κ) (s : State κ) (hinv : Inv env s) (op : Op) :
    Inv env (step env s op).state
      ∧ ((step env s op).state.healthy = false ↔ (s.healthy = false ∨ op = .OnStoppedLeading))
      ∧ ((step env s op).returned = false → s.healthy = false) := by
  cases op with
  | OnStartedLeading =>
    simp only [step, OnStartedLeading_eq env s hinv.len, Outcome.state, Outcome.returned,
      logInfo]
    refine ⟨⟨hinv.nodup, hinv.len, hinv.openWhenHealthy, hinv.closedWhenNot⟩, by simp, by simp⟩
  | OnNewLeader cur =>
    simp only [step, Outcome.state, Outcome.returned, OnNewLeader]
    split <;>
      exact ⟨⟨hinv.nodup, hinv.len, hinv.openWhenHealthy, hinv.closedWhenNot⟩, by simp [logInfo],
        by simp⟩
  | healthz =>
    simp only [step, Outcome.state, Outcome.returned, healthz_httpWriter]
    exact ⟨hinv, by simp, by simp⟩
  | OnStoppedLeading =>
    cases hh : s.healthy with
    | true =>
      obtain ⟨heap1, h1, _, h3, _⟩ :=
        OnStoppedLeading_ok env s hinv.nodup (hinv.openWhenHealthy hh)
      simp only [step, h1, Outcome.state, Outcome.returned]
      exact ⟨⟨hinv.nodup, hinv.len, by simp, fun _ => h3⟩, by simp, by simp⟩
    | false =>
      have hfr := stopControllers_frame env.stopChannels
        (logInfo "no longer leader, shutting down" s)
      simp only [step, OnStoppedLeading]
      cases hst : stopControllers env.stopChannels
          (logInfo "no longer leader, shutting down" s) with
      | panicked msg s1 =>
        rw [hst] at hfr
        simp only [Outcome.state, logInfo] at hfr
        obtain ⟨k1, _, _, _, _, k6⟩ := hfr
        simp only [Outcome.state, Outcome.returned]
        refine ⟨⟨hinv.nodup, hinv.len, ?_, fun _ c hc => k6 c (hinv.closedWhenNot hh c hc)⟩,
          by simp [k1, hh], by simp⟩
        intro h
        rw [k1, hh] at h
        exact absurd h (by simp)
      | done s1 =>
        rw [hst] at hfr
        simp only [Outcome.state, logInfo] at hfr
        obtain ⟨_, _, _, _, _, k6⟩ := hfr
        simp only [Outcome.state, Outcome.returned, cancel]
        exact ⟨⟨hinv.nodup, hinv.len, by simp,
          fun _ c hc => k6 c (hinv.closedWhenNot hh c hc)⟩, by simp, by simp⟩

theorem run_inv {κ : Type} (env : Env κ) (ops : List Op) (s : State κ) (hinv : Inv env s) :
    Inv env (run env ops s).state
      ∧ ((run env ops s).state.healthy = false ↔ (s.healthy = false ∨ .OnStoppedLeading ∈ ops))
      ∧ ((run env ops s).returned = false → (s.healthy = false ∨ .OnStoppedLeading ∈ ops)) := by
  induction ops generalizing s with
  | nil => simp [run, Outcome.state, Outcome.returned, hinv]
  | cons op ops ih =>
    obtain ⟨h1, h2, h3⟩ := step_inv env s hinv op
    simp only [run]
    cases hst : step env s op with
    | panicked msg s1 =>
      rw [hst] at h1 h2 h3
      simp only [Outcome.state, Outcome.returned] at h1 h2 h3 ⊢
      have hs : s.healthy = false := h3 trivial
      exact ⟨h1, by simp [hs, h2.mpr (Or.inl hs)], fun _ => Or.inl hs⟩
    | done s1 =>
      rw [hst] at h1 h2
      simp only [Outcome.state] at h1 h2
      obtain ⟨k1, k2, k3⟩ := ih s1 h1
      refine ⟨k1, ?_, ?_⟩
      · rw [k2, h2, List.mem_cons]
        constructor
        · rintro ((h | h) | h)
          · exact Or.inl h
          · exact Or.inr (Or.inl h.symm)
          · exact Or.inr (Or.inr h)
        · rintro (h | h | h)
          · exact Or.inl (Or.inl h)
          · exact Or.inl (Or.inr h.symm)
          · exact Or.inr h
      · intro h
        rcases k3 h with h | h
        · rcases h2.mp h with h | h
          · exact Or.inl h
          · exact Or.inr (by simp [h])
        · exact Or.inr (by simp [h])

theorem startEnv_eq {κ : Type} (id : String) (cs : List κ) (heap0 : List Bool) :
    startEnv id cs heap0
      = { id := id, controllers := cs, stopChannels := List.range' heap0.length cs.length } := by
  simp [startEnv, RunLeaderElection_eq, initState]

theorem startState_eq {κ : Type} (id : String) (cs : List κ) (heap0 : List Bool) :
    startState id cs heap0
      = { healthy := true, heap := heap0 ++ List.replicate cs.length false, cancelCalls := 0,
          launched := [], logs := [] } := by
  simp [startState, RunLeaderElection_eq, initState]

theorem Inv_start {κ : Type} (id : String) (cs : List κ) (heap0 : List Bool) :
    Inv (startEnv id cs heap0) (startState id cs heap0) :=
  Inv_init id cs heap0

/-! ## The liveness handler -/

/-- C1: whatever the health flag, `healthz` answers status 200 with body exactly the five
bytes of "alive" when the flag is true, and status 500 (a 5xx status) with an empty body
when it is false; the handler leaves the process state as it was. -/
theorem healthz_response {κ : Type} (s : State κ) :
    healthz httpWriter s Response.empty
        = (s, if s.healthy then { status := some 200, body := [97, 108, 105, 118, 101] }
              else { status := some 500, body := [] })
      ∧ aliveBytes = [97, 108, 105, 118, 101]
      ∧ aliveBytes.length = 5
      ∧ StatusInternalServerError / 100 = 5 := by
  refine ⟨?_, by decide, by decide, by decide⟩
  rw [healthz_httpWriter]
  have h : aliveBytes = [97, 108, 105, 118, 101] := by decide
  simp [h, StatusOK, StatusInternalServerError]

/-! ## The health flag -/

/-- C2: from the start state, after any finite sequence of `OnStartedLeading`,
`OnStoppedLeading`, `OnNewLeader` and `healthz` operations the flag `healthy` is false
exactly when the sequence contains an `OnStoppedLeading`.  Applied to prefixes this says
the flag is true before any `OnStoppedLeading` and stays false once it is false. -/
theorem healthy_false_iff_stopped {κ : Type} (id : String) (cs : List κ) (heap0 : List Bool)
    (ops : List Op) :
    ((run (startEnv id cs heap0) ops (startState id cs heap0)).state.healthy = false
        ↔ Op.OnStoppedLeading ∈ ops)
      ∧ (startState id cs heap0).healthy = true
      ∧ ∀ more : List Op,
          (run (startEnv id cs heap0) ops (startState id cs heap0)).state.healthy = false →
          (run (startEnv id cs heap0) (ops ++ more) (startState id cs heap0)).state.healthy
            = false := by
  have hstart : (startState id cs heap0).healthy = true := by simp [startState_eq]
  have key : ∀ l : List Op,
      ((run (startEnv id cs heap0) l (startState id cs heap0)).state.healthy = false
        ↔ Op.OnStoppedLeading ∈ l) := by
    intro l
    have h := (run_inv (startEnv id cs heap0) l (startState id cs heap0)
      (Inv_start id cs heap0)).2.1
    simpa [hstart] using h
  refine ⟨key ops, hstart, ?_⟩
  intro more h
  rw [key] at h ⊢
  exact List.mem_append_left _ h

/-! ## Starting the workers -/

/-- C3: for `n` controllers `RunLeaderElection` builds `n` pairwise distinct stop
channels, all fresh and open; `OnStartedLeading` returns normally (no index is out of
range) and appends exactly `n` launches to the launch log, the `i`-th being the `i`-th
controller with threadiness 1 on the `i`-th stop channel. -/
theorem RunLeaderElection_launches {κ : Type} (id : String) (cs : List κ)
    (heap0 : List Bool) :
    (startEnv id cs heap0).stopChannels.length = cs.length
      ∧ (startEnv id cs heap0).stopChannels.Nodup
      ∧ AllOpen (startState id cs heap0).heap (startEnv id cs heap0).stopChannels
      ∧ (∀ s : State κ, OnStartedLeading (startEnv id cs heap0) s
          = .done { logInfo "became leader, starting controllers" s with
              launched := s.launched
                ++ List.zipWith launchOf cs (startEnv id cs heap0).stopChannels })
      ∧ (List.zipWith launchOf cs (startEnv id cs heap0).stopChannels).length = cs.length
      ∧ ∀ i : Fin cs.length,
          (startEnv id cs heap0).stopChannels[i.val]? = some (heap0.length + i.val)
            ∧ (List.zipWith launchOf cs (startEnv id cs heap0).stopChannels)[i.val]?
                = some { controller := cs[i.val], threadiness := 1,
                         stop := heap0.length + i.val } := by
  have hinv := Inv_start id cs heap0
  have hctl : (startEnv id cs heap0).controllers = cs := by simp [startEnv_eq]
  refine ⟨by simpa [hctl] using hinv.len, hinv.nodup, AllOpen_stopChannels_init id cs _, ?_,
    ?_, ?_⟩
  · intro s
    have h := OnStartedLeading_eq (startEnv id cs heap0) s hinv.len
    rw [hctl] at h
    exact h
  · simp [startEnv_eq]
  · intro i
    have hi : i.val < cs.length := i.isLt
    have hch : (startEnv id cs heap0).stopChannels[i.val]? = some (heap0.length + i.val) := by
      simp [startEnv_eq, List.getElem?_range', hi]
    refine ⟨hch, ?_⟩
    rw [List.getElem?_zipWith, hch, List.getElem?_eq_getElem hi]
    rfl

/-! ## Stopping the workers -/

/-- C4, as stated, fails: the list `[c, c]` names one open channel twice, so every channel
of the list is open, yet `stopControllers` panics at the second `close(c)`. -/
theorem stopControllers_aliased_panics :
    AllOpen (initState Nat [false]).heap [0, 0]
      ∧ stopControllers [0, 0] (initState Nat [false])
          = .panicked "close of closed channel"
              { healthy := true, heap := [true], cancelCalls := 0, launched := [],
                logs := [] } := by
  decide

/-- C4, amended: for every list of pairwise distinct channels that are all open,
`stopControllers` returns normally, leaves every channel of the list closed, and changes
nothing else (the heap keeps its length, every other channel its status, and the rest of
the state is untouched); `OnStoppedLeading` over such a list returns normally as well and
leaves every channel of the list closed. -/
theorem stopControllers_closes_all {κ : Type} (chans : List Nat) (s : State κ)
    (hnd : chans.Nodup) (hopen : AllOpen s.heap chans) :
    (∃ heap1, stopControllers chans s = .done { s with heap := heap1 }
        ∧ heap1.length = s.heap.length
        ∧ AllClosed heap1 chans
        ∧ ∀ d, d ∉ chans → heap1[d]? = s.heap[d]?)
      ∧ ∀ env : Env κ, env.stopChannels = chans →
          ∃ s1, OnStoppedLeading env s = .done s1 ∧ AllClosed s1.heap chans := by
  refine ⟨stopControllers_ok chans s hnd hopen, ?_⟩
  intro env henv
  subst henv
  obtain ⟨heap1, h1, _, h3, _⟩ := OnStoppedLeading_ok env s hnd hopen
  exact ⟨_, h1, h3⟩

/-- Witness of `stopControllers_closes_all`: two distinct open channels. -/
theorem stopControllers_closes_all_witness :
    [0, 1].Nodup ∧ AllOpen (initState Nat [false, false]).heap [0, 1]
      ∧ ((∃ heap1, stopControllers [0, 1] (initState Nat [false, false])
              = .done { initState Nat [false, false] with heap := heap1 }
            ∧ heap1.length = (initState Nat [false, false]).heap.length
            ∧ AllClosed heap1 [0, 1]
            ∧ ∀ d, d ∉ [0, 1] → heap1[d]? = (initState Nat [false, false]).heap[d]?)
          ∧ ∀ env : Env Nat, env.stopChannels = [0, 1] →
              ∃ s1, OnStoppedLeading env (initState Nat [false, false]) = .done s1
                ∧ AllClosed s1.heap [0, 1]) :=
  ⟨by decide, by decide,
    stopControllers_closes_all [0, 1] (initState Nat [false, false]) (by decide) (by decide)⟩

/-! ## Losing leadership shuts the process down -/

/-- C5: in every state reached from the start state in which all stop channels are
open, `OnStoppedLeading` returns normally, and on return `cancel` has been invoked (once
more than before), every stop channel is closed and `healthy` is false.  The other
operations (`OnStartedLeading`, `OnNewLeader`, `healthz` over any response writer) leave
the number of `cancel` invocations unchanged, in any environment and state. -/
theorem OnStoppedLeading_cancels {κ : Type} (id : String) (cs : List κ) (heap0 : List Bool)
    (ops : List Op) (s : State κ)
    (hreach : run (startEnv id cs heap0) ops (startState id cs heap0) = .done s)
    (hopen : AllOpen s.heap (startEnv id cs heap0).stopChannels) :
    (∃ s1, OnStoppedLeading (startEnv id cs heap0) s = .done s1
        ∧ s1.cancelCalls = s.cancelCalls + 1
        ∧ 0 < s1.cancelCalls
        ∧ AllClosed s1.heap (startEnv id cs heap0).stopChannels
        ∧ s1.healthy = false)
      ∧ ∀ (env : Env κ) (t : State κ),
          (OnStartedLeading env t).state.cancelCalls = t.cancelCalls
            ∧ (∀ current_id, (OnNewLeader env current_id t).cancelCalls = t.cancelCalls)
            ∧ ∀ (ω : Type) (W : ResponseWriter ω) (w : ω),
                (healthz W t w).1.cancelCalls = t.cancelCalls := by
  constructor
  · have hinv := (run_inv (startEnv id cs heap0) ops (startState id cs heap0)
      (Inv_start id cs heap0)).1
    rw [hreach] at hinv
    obtain ⟨heap1, h1, _, h3, _⟩ :=
      OnStoppedLeading_ok (startEnv id cs heap0) s hinv.nodup hopen
    exact ⟨_, h1, rfl, Nat.succ_pos _, h3, rfl⟩
  · intro env t
    refine ⟨?_, ?_, ?_⟩
    · exact (runControllersFrom_frame env.controllers env.stopChannels 0
        (logInfo "became leader, starting controllers" t)).2.2
    · intro current_id
      unfold OnNewLeader
      split <;> rfl
    · intro ω W w
      unfold healthz
      split
      · split <;> rfl
      · rfl

/-- Witness of `OnStoppedLeading_cancels`: two controllers, leadership gained, a probe and
a leader notification served. -/
theorem OnStoppedLeading_cancels_witness :
    run (startEnv "pod-a" [10, 20] []) [.OnStartedLeading, .healthz, .OnNewLeader "pod-a"]
        (startState "pod-a" [10, 20] [])
      = .done { healthy := true, heap := [false, false], cancelCalls := 0,
                launched := [launchOf 10 0, launchOf 20 1],
                logs := ["became leader, starting controllers", "still the leader!"] }
    ∧ OnStoppedLeading (startEnv "pod-a" [10, 20] [])
        { healthy := true, heap := [false, false], cancelCalls := 0,
          launched := [launchOf 10 0, launchOf 20 1],
          logs := ["became leader, starting controllers", "still the leader!"] }
      = .done { healthy := false, heap := [true, true], cancelCalls := 1,
                launched := [launchOf 10 0, launchOf 20 1],
                logs := ["became leader, starting controllers", "still the leader!",
                         "no longer leader, shutting down"] }
    ∧ ∃ s1 : State Nat, s1.cancelCalls = 1 ∧ s1.healthy = false :=
  ⟨by decide, by decide,
    let ⟨s1, _, h2, _, _, h5⟩ :=
      (OnStoppedLeading_cancels "pod-a" [10, 20] []
        [.OnStartedLeading, .healthz, .OnNewLeader "pod-a"]
        { healthy := true, heap := [false, false], cancelCalls := 0,
          launched := [launchOf 10 0, launchOf 20 1],
          logs := ["became leader, starting controllers", "still the leader!"] }
        (by decide) (by decide)).1
    ⟨s1, h2, h5⟩⟩

/-! ## Double entry of the callbacks -/

/-- C6, as stated, fails: with one controller, two `OnStartedLeading` in a row leave two
launches of that controller in the launch log (the controller is started twice), one
invocation leaves one. -/
theorem OnStartedLeading_twice_launches_twice :
    (run (startEnv "pod-a" [10] []) [.OnStartedLeading, .OnStartedLeading]
        (startState "pod-a" [10] [])).state.launched = [launchOf 10 0, launchOf 10 0]
      ∧ (run (startEnv "pod-a" [10] []) [.OnStartedLeading]
          (startState "pod-a" [10] [])).state.launched = [launchOf 10 0]
      ∧ ((run (startEnv "pod-a" [10] []) [.OnStartedLeading, .OnStartedLeading]
          (startState "pod-a" [10] [])).state.launched.map Launch.controller).count 10 = 2
      ∧ (run (startEnv "pod-a" [10] []) [.OnStartedLeading, .OnStartedLeading]
          (startState "pod-a" [10] [])).state.launched
        ≠ (run (startEnv "pod-a" [10] []) [.OnStartedLeading]
          (startState "pod-a" [10] [])).state.launched := by
  decide

/-- C6, amended: `OnStartedLeading` has no guard against double entry.  For every list of
`n` controllers, one invocation from the start state launches the `n` controllers, and a
second invocation right after it returns normally and launches all of them again on the
same stop channels, so that `2 * n` launches are recorded; the two launch logs are equal
only for the empty list of controllers. -/
theorem OnStartedLeading_twice {κ : Type} (id : String) (cs : List κ) (heap0 : List Bool) :
    (run (startEnv id cs heap0) [.OnStartedLeading]
        (startState id cs heap0)).state.launched
        = List.zipWith launchOf cs (startEnv id cs heap0).stopChannels
      ∧ (run (startEnv id cs heap0) [.OnStartedLeading, .OnStartedLeading]
          (startState id cs heap0)).returned = true
      ∧ (run (startEnv id cs heap0) [.OnStartedLeading, .OnStartedLeading]
          (startState id cs heap0)).state.launched
        = List.zipWith launchOf cs (startEnv id cs heap0).stopChannels
            ++ List.zipWith launchOf cs (startEnv id cs heap0).stopChannels
      ∧ (run (startEnv id cs heap0) [.OnStartedLeading, .OnStartedLeading]
          (startState id cs heap0)).state.launched.length = 2 * cs.length
      ∧ ((run (startEnv id cs heap0) [.OnStartedLeading, .OnStartedLeading]
            (startState id cs heap0)).state.launched
          = (run (startEnv id cs heap0) [.OnStartedLeading]
            (startState id cs heap0)).state.launched ↔ cs = []) := by
  have hinv := Inv_start id cs heap0
  have hctl : (startEnv id cs heap0).controllers = cs := by simp [startEnv_eq]
  have hlen : (startEnv id cs heap0).stopChannels.length = cs.length := by
    simpa [hctl] using hinv.len
  have hl : (startState id cs heap0).launched = [] := by simp [startState_eq]
  have hz : (List.zipWith launchOf cs (startEnv id cs heap0).stopChannels).length
      = cs.length := by simp [hlen]
  have h1 : (run (startEnv id cs heap0) [.OnStartedLeading]
      (startState id cs heap0)).state.launched
        = List.zipWith launchOf cs (startEnv id cs heap0).stopChannels := by
    simp [run, step, OnStartedLeading_eq _ _ hinv.len, Outcome.state, hctl, hl]
  have h2 : (run (startEnv id cs heap0) [.OnStartedLeading, .OnStartedLeading]
      (startState id cs heap0)).state.launched
        = List.zipWith launchOf cs (startEnv id cs heap0).stopChannels
            ++ List.zipWith launchOf cs (startEnv id cs heap0).stopChannels := by
    simp [run, step, OnStartedLeading_eq _ _ hinv.len, Outcome.state, hctl, hl]
  refine ⟨h1, ?_, h2, ?_, ?_⟩
  · simp [run, step, OnStartedLeading_eq _ _ hinv.len, Outcome.returned]
  · rw [h2, List.length_append, hz]
    omega
  · rw [h1, h2]
    constructor
    · intro h
      have hlen2 := congrArg List.length h
      rw [List.length_append, hz] at hlen2
      exact List.length_eq_zero.mp (by omega)
    · rintro rfl
      simp

/-- C7, as stated, fails: with the empty list of controllers a second `OnStoppedLeading`
returns normally; it only invokes `cancel` again. -/
theorem OnStoppedLeading_twice_no_controllers :
    run (startEnv "pod-a" ([] : List Nat) []) [.OnStoppedLeading, .OnStoppedLeading]
        (startState "pod-a" ([] : List Nat) [])
      = .done { healthy := false, heap := [], cancelCalls := 2, launched := [],
                logs := ["no longer leader, shutting down",
                         "no longer leader, shutting down"] } := by
  decide

/-- C7, amended: for every non-empty list of controllers, in every state reached from the
start state by a sequence of operations that contains an `OnStoppedLeading`, one more
`OnStoppedLeading` does not return: it panics with "close of closed channel" at the first
stop channel, before `cancel` is invoked and before any other change than its log line. -/
theorem OnStoppedLeading_again_panics {κ : Type} (id : String) (cs : List κ)
    (heap0 : List Bool) (ops : List Op) (s : State κ) (hcs : cs ≠ [])
    (hreach : run (startEnv id cs heap0) ops (startState id cs heap0) = .done s)
    (hstopped : Op.OnStoppedLeading ∈ ops) :
    OnStoppedLeading (startEnv id cs heap0) s
      = .panicked "close of closed channel" (logInfo "no longer leader, shutting down" s) := by
  obtain ⟨hinv, hiff, _⟩ := run_inv (startEnv id cs heap0) ops (startState id cs heap0)
    (Inv_start id cs heap0)
  rw [hreach] at hinv hiff
  simp only [Outcome.state] at hinv hiff
  have hfalse : s.healthy = false := hiff.mpr (Or.inr hstopped)
  have hclosed := hinv.closedWhenNot hfalse
  have hctl : (startEnv id cs heap0).controllers = cs := by simp [startEnv_eq]
  have hlen : (startEnv id cs heap0).stopChannels.length = cs.length := by
    simpa [hctl] using hinv.len
  cases hch : (startEnv id cs heap0).stopChannels with
  | nil =>
    rw [hch] at hlen
    exact absurd (List.length_eq_zero.mp hlen.symm) hcs
  | cons c rest =>
    rw [hch] at hclosed
    have hc : isClosed (logInfo "no longer leader, shutting down" s).heap c :=
      hclosed c (by simp)
    simp only [OnStoppedLeading, hch, stopControllers_closed_head c rest _ hc]

/-- Witness of `OnStoppedLeading_again_panics`: one controller, leadership gained and
lost. -/
theorem OnStoppedLeading_again_panics_witness :
    run (startEnv "pod-a" [10] []) [.OnStartedLeading, .OnStoppedLeading]
        (startState "pod-a" [10] [])
      = .done { healthy := false, heap := [true], cancelCalls := 1,
                launched := [launchOf 10 0],
                logs := ["became leader, starting controllers",
                         "no longer leader, shutting down"] }
    ∧ OnStoppedLeading (startEnv "pod-a" [10] [])
        { healthy := false, heap := [true], cancelCalls := 1, launched := [launchOf 10 0],
          logs := ["became leader, starting controllers",
                   "no longer leader, shutting down"] }
      = .panicked "close of closed channel"
          (logInfo "no longer leader, shutting down"
            { healthy := false, heap := [true], cancelCalls := 1,
              launched := [launchOf 10 0],
              logs := ["became leader, starting controllers",
                       "no longer leader, shutting down"] }) :=
  ⟨by decide,
    OnStoppedLeading_again_panics "pod-a" [10] []
      [.OnStartedLeading, .OnStoppedLeading] _ (by decide) (by decide) (by decide)⟩

/-! ## Stop channels across leadership terms -/

/-- C8, as stated, fails: with one controller, `OnStartedLeading` after an
`OnStoppedLeading` launches the controller on stop channel 0, which is closed at that
time. -/
theorem OnStartedLeading_after_stop_closed_channel :
    run (startEnv "pod-a" [10] []) [.OnStoppedLeading] (startState "pod-a" [10] [])
      = .done { healthy := false, heap := [true], cancelCalls := 1, launched := [],
                logs := ["no longer leader, shutting down"] }
    ∧ OnStartedLeading (startEnv "pod-a" [10] [])
        { healthy := false, heap := [true], cancelCalls := 1, launched := [],
          logs := ["no longer leader, shutting down"] }
      = .done { healthy := false, heap := [true], cancelCalls := 1,
                launched := [launchOf 10 0],
                logs := ["no longer leader, shutting down",
                         "became leader, starting controllers"] }
    ∧ ¬ isOpen [true] (launchOf 10 0).stop
    ∧ isClosed [true] (launchOf 10 0).stop := by
  decide

/-- C8, amended: the stop channels are made once, by `RunLeaderElection`.  Every sequence
of operations from the start state that contains no `OnStoppedLeading` returns normally,
and an `OnStartedLeading` in the state it reaches returns normally and launches every
controller, each on a stop channel that is open at that time. -/
theorem OnStartedLeading_open_channels {κ : Type} (id : String) (cs : List κ)
    (heap0 : List Bool) (ops : List Op) (hnostop : Op.OnStoppedLeading ∉ ops) :
    ∃ s, run (startEnv id cs heap0) ops (startState id cs heap0) = .done s
      ∧ OnStartedLeading (startEnv id cs heap0) s
          = .done { logInfo "became leader, starting controllers" s with
              launched := s.launched
                ++ List.zipWith launchOf cs (startEnv id cs heap0).stopChannels }
      ∧ (List.zipWith launchOf cs (startEnv id cs heap0).stopChannels).length = cs.length
      ∧ ∀ l ∈ List.zipWith launchOf cs (startEnv id cs heap0).stopChannels,
          isOpen s.heap l.stop := by
  obtain ⟨hinv, hiff, hret⟩ := run_inv (startEnv id cs heap0) ops (startState id cs heap0)
    (Inv_start id cs heap0)
  have hstart : (startState id cs heap0).healthy = true := by simp [startState_eq]
  have hctl : (startEnv id cs heap0).controllers = cs := by simp [startEnv_eq]
  cases hrun : run (startEnv id cs heap0) ops (startState id cs heap0) with
  | panicked msg s1 =>
    rw [hrun] at hret
    rcases hret rfl with h | h
    · rw [hstart] at h
      exact absurd h (by simp)
    · exact absurd h hnostop
  | done s =>
    rw [hrun] at hinv hiff
    simp only [Outcome.state] at hinv hiff
    have hhealthy : s.healthy = true := by
      cases hs : s.healthy with
      | true => rfl
      | false =>
        rcases hiff.mp hs with h | h
        · rw [hstart] at h
          exact absurd h (by simp)
        · exact absurd h hnostop
    have hstartEq := OnStartedLeading_eq (startEnv id cs heap0) s hinv.len
    rw [hctl] at hstartEq
    have hlen : (startEnv id cs heap0).stopChannels.length = cs.length := by
      simpa [hctl] using hinv.len
    refine ⟨s, rfl, hstartEq, by simp [hlen], ?_⟩
    intro l hl
    obtain ⟨i, hi⟩ := List.getElem?_of_mem hl
    rw [List.getElem?_zipWith] at hi
    cases hc : cs[i]? with
    | none => simp [hc] at hi
    | some c =>
      cases hch : (startEnv id cs heap0).stopChannels[i]? with
      | none => simp [hc, hch] at hi
      | some ch =>
        simp only [hc, hch, Option.some.injEq] at hi
        subst hi
        exact hinv.openWhenHealthy hhealthy ch (List.getElem?_mem hch)

/-- Witness of `OnStartedLeading_open_channels`: two controllers, a probe and a leader
notification before leadership is gained. -/
theorem OnStartedLeading_open_channels_witness :
    Op.OnStoppedLeading ∉ [Op.healthz, Op.OnNewLeader "pod-b"]
      ∧ ∃ s, run (startEnv "pod-a" [10, 20] [true]) [Op.healthz, Op.OnNewLeader "pod-b"]
            (startState "pod-a" [10, 20] [true]) = .done s
          ∧ OnStartedLeading (startEnv "pod-a" [10, 20] [true]) s
              = .done { logInfo "became leader, starting controllers" s with
                  launched := s.launched
                    ++ List.zipWith launchOf [10, 20]
                        (startEnv "pod-a" [10, 20] [true]).stopChannels }
          ∧ (List.zipWith launchOf [10, 20]
              (startEnv "pod-a" [10, 20] [true]).stopChannels).length = [10, 20].length
          ∧ ∀ l ∈ List.zipWith launchOf [10, 20]
              (startEnv "pod-a" [10, 20] [true]).stopChannels, isOpen s.heap l.stop :=
  ⟨by decide,
    OnStartedLeading_open_channels "pod-a" [10, 20] [true]
      [Op.healthz, Op.OnNewLeader "pod-b"] (by decide)⟩

/-! ## The lease lock and the election configuration -/

/-- C9: for all strings `lockName`, `podname` and `namespace`, in that parameter order,
`GetNewLock` returns a lease lock whose lease name is `lockName`, whose lease namespace is
`namespace`, whose holder identity is `podname` and whose client is the client passed in. -/
theorem GetNewLock_fields {γ : Type} (client : γ) (lockName podname namespace_ : String) :
    (GetNewLock client lockName podname namespace_).LeaseMeta.Name = lockName
      ∧ (GetNewLock client lockName podname namespace_).LeaseMeta.Namespace = namespace_
      ∧ (GetNewLock client lockName podname namespace_).LockConfig.Identity = podname
      ∧ (GetNewLock client lockName podname namespace_).Client = client :=
  ⟨rfl, rfl, rfl, rfl⟩

/-- C10: the configuration passed to the election loop has a lease duration of 15 s, a
renew deadline of 10 s and a retry period of 2 s (in nanoseconds, all within the range of
a 64-bit duration) with release-on-cancel enabled, and these satisfy
`0 < retryPeriod < renewDeadline < leaseDuration` and
`10 * renewDeadline > 12 * retryPeriod`. -/
theorem electionConfig_values :
    electionConfig.LeaseDuration = 15 * Second
      ∧ electionConfig.RenewDeadline = 10 * Second
      ∧ electionConfig.RetryPeriod = 2 * Second
      ∧ electionConfig.ReleaseOnCancel = true
      ∧ Second = 1000000000
      ∧ electionConfig.LeaseDuration < 2 ^ 63
      ∧ 0 < electionConfig.RetryPeriod
      ∧ electionConfig.RetryPeriod < electionConfig.RenewDeadline
      ∧ electionConfig.RenewDeadline < electionConfig.LeaseDuration
      ∧ 10 * electionConfig.RenewDeadline > 12 * electionConfig.RetryPeriod := by
  decide

end Leadership
